import Mathlib

/-!
Shallow embedding of the combat-AI subsystem of the `galaxy-war` arena game
(`src/game/AIBehavior.ts`, `src/game/Enemy.ts`), together with theorems that
settle the specification claims about it.

World coordinates (JS `number` / `THREE.Vector3`) are modelled as rational
triples; all grid arithmetic in the source is integral and is modelled with
`Int`/`Nat`.  JS `Map` objects are modelled as prepend-only association lists
(`Map.set` prepends, `Map.get` returns the newest binding).  The JS idiom
`m.get(k) || Infinity` is modelled faithfully: a stored value `0` is falsy in
JS, so it is treated as missing (`jsOrInf`).  `Array.prototype.sort` (stable
since ES2019) is modelled by a stable insertion sort over the same comparator.
Loops without a structural termination measure receive an explicit fuel
parameter; a result of `none` means the loop has not returned within the given
fuel, and a result of `none` for every fuel means the loop never returns.
-/

namespace GalaxyWar

/-- World-space vector (`THREE.Vector3`), with exact rational coordinates. -/
structure Vec3 where
  x : ℚ
  y : ℚ
  z : ℚ
deriving DecidableEq, Repr

/-- Squared Euclidean distance between two world points.  The source compares
`a.distanceTo(b) <= r`; we state such comparisons as `distSq a b ≤ r^2`,
which is equivalent for `r ≥ 0`. -/
def distSq (a b : Vec3) : ℚ :=
  (a.x - b.x) ^ 2 + (a.y - b.y) ^ 2 + (a.z - b.z) ^ 2

/-! ## PathFinder (AIBehavior.ts, `export class PathFinder`) -/

/-- A grid cell `{x, z}` as used by `PathFinder`. -/
structure GridPoint where
  x : Int
  z : Int
deriving DecidableEq, Repr

/-- `private static grid: boolean[][]` — `true` marks an obstacle cell. -/
abbrev Grid := List (List Bool)

/-- `private static gridSize = 1`. -/
def gridSize : ℚ := 1

/-- `private static arenaSize = 50`. -/
def arenaSize : ℚ := 50

/-- `Math.floor(this.arenaSize / this.gridSize)`, the grid side length used by
the coordinate maps. -/
def gridCount : Int := ⌊arenaSize / gridSize⌋

/-- `PathFinder.worldToGrid`: floor-divide into cells, then clamp both axes to
`[0, size-1]`. -/
def worldToGrid (p : Vec3) : GridPoint :=
  let x : Int := ⌊(p.x + arenaSize / 2) / gridSize⌋
  let z : Int := ⌊(p.z + arenaSize / 2) / gridSize⌋
  ⟨max 0 (min (gridCount - 1) x), max 0 (min (gridCount - 1) z)⟩

/-- `PathFinder.gridToWorld`: cell `(x, z)` maps to the world point
`((x - size/2) * gridSize, 1, (z - size/2) * gridSize)` — the cell's minimum
corner, not its center. -/
def gridToWorld (p : GridPoint) : Vec3 :=
  ⟨((p.x : ℚ) - (gridCount : ℚ) / 2) * gridSize, 1,
   ((p.z : ℚ) - (gridCount : ℚ) / 2) * gridSize⟩

/-- `this.grid[x][z]` for in-bounds indices (out-of-bounds reads default to
`false`; `isValidCell` only consults this after its bounds checks). -/
def cellAt (g : Grid) (x z : Int) : Bool :=
  (g.getD x.toNat []).getD z.toNat false

/-- Number of rows, `this.grid.length`. -/
def rowCount (g : Grid) : Int := (g.length : Int)

/-- Number of columns, `this.grid[0].length`. -/
def colCount (g : Grid) : Int := ((g.headD []).length : Int)

/-- `PathFinder.isValidCell`: in bounds on both axes and not an obstacle. -/
def isValidCell (g : Grid) (x z : Int) : Bool :=
  decide (0 ≤ x) && decide (x < rowCount g) &&
  decide (0 ≤ z) && decide (z < colCount g) && !(cellAt g x z)

/-- Association list keyed by grid points, modelling the JS `Map` objects
keyed by the string `` `${x},${z}` `` (that key is injective in the cell).
`Map.set` is modelled by prepending, `Map.get` by first match. -/
abbrev PMap (α : Type) := List (GridPoint × α)

/-- `Map.get` — newest binding wins. -/
def pget {α : Type} : PMap α → GridPoint → Option α
  | [], _ => none
  | (k, v) :: m, k' => if k = k' then some v else pget m k'

/-- `Map.set`. -/
def pset {α : Type} (m : PMap α) (k : GridPoint) (v : α) : PMap α :=
  (k, v) :: m

/-- JS `v || Infinity` applied to a `Map.get` result: `undefined` and the
falsy number `0` both become `Infinity` (`none`). -/
def jsOrInf (o : Option Nat) : Option Nat :=
  match o with
  | some 0 => none
  | o => o

/-- `t < (m.get(k) || Infinity)` with `none` playing `Infinity`. -/
def ltInf (t : Nat) (o : Option Nat) : Bool :=
  match jsOrInf o with
  | none => true
  | some v => decide (t < v)

/-- `(a || Infinity) <= (b || Infinity)`, the effective order of the
`openSet.sort` comparator `(f(a)||Infinity) - (f(b)||Infinity)`. -/
def leInf (a b : Option Nat) : Bool :=
  match jsOrInf a, jsOrInf b with
  | _, none => true
  | none, some _ => false
  | some x, some y => decide (x ≤ y)

/-- Stable insertion of `a` into `l`: `a` is placed before the first element
`b` with `le a b`, so before every element comparing equal to it.  Since
`sortStable` folds from the right, elements later in the input are inserted
first and each earlier element lands before the equal later ones — the stable
order. -/
def insertStable {α : Type} (le : α → α → Bool) (a : α) : List α → List α
  | [] => [a]
  | b :: l => if le a b then a :: b :: l else b :: insertStable le a l

/-- Stable sort (ES2019 `Array.prototype.sort` is stable; for the total
comparator used here any stable sort produces the same list). -/
def sortStable {α : Type} (le : α → α → Bool) : List α → List α
  | [] => []
  | a :: l => insertStable le a (sortStable le l)

/-- Manhattan-distance heuristic of `PathFinder.aStar`. -/
def heuristic (a b : GridPoint) : Nat :=
  (a.x - b.x).natAbs + (a.z - b.z).natAbs

/-- The four 4-connected neighbors, in source order. -/
def neighbors (p : GridPoint) : List GridPoint :=
  [⟨p.x + 1, p.z⟩, ⟨p.x - 1, p.z⟩, ⟨p.x, p.z + 1⟩, ⟨p.x, p.z - 1⟩]

/-- Mutable search state of `PathFinder.aStar`. -/
structure SState where
  openSet : List GridPoint
  cameFrom : PMap GridPoint
  gScoreM : PMap Nat
  fScoreM : PMap Nat
deriving Repr

/-- The body of `for (const neighbor of neighbors)`: relax one neighbor of
`current`, updating the maps and pushing the neighbor onto the open set when
it is not already present. -/
def relax (g : Grid) (endP current : GridPoint) (st : SState) (n : GridPoint) :
    SState :=
  if isValidCell g n.x n.z then
    let tg := (pget st.gScoreM current).getD 0 + 1
    if ltInf tg (pget st.gScoreM n) then
      { openSet :=
          if st.openSet.any (fun m => m = n) then st.openSet
          else st.openSet ++ [n]
        cameFrom := pset st.cameFrom n current
        gScoreM := pset st.gScoreM n tg
        fScoreM := pset st.fScoreM n (tg + heuristic n endP) }
    else st
  else st

/-- The `while (cameFrom.has(getKey(curr)))` path-reconstruction loop.  The
accumulator starts as `[current]` and predecessors are prepended
(`path.unshift`).  The source loop has no bound; `none` means the given fuel
was exhausted before the loop exited. -/
def reconstruct (cf : PMap GridPoint) : Nat → GridPoint → List GridPoint →
    Option (List GridPoint)
  | 0, cur, path =>
    match pget cf cur with
    | none => some path
    | some _ => none
  | f + 1, cur, path =>
    match pget cf cur with
    | none => some path
    | some p => reconstruct cf f p (p :: path)

/-- The `while (openSet.length > 0)` loop of `PathFinder.aStar`: sort the open
set by f-score (stable, ascending), shift the head, return the reconstructed
path when it is the goal, otherwise relax the four neighbors and abandon the
search (returning `[end]`) when the open set exceeds 200 entries. -/
def aStarLoop (g : Grid) (endP : GridPoint) : Nat → SState →
    Option (List GridPoint)
  | 0, _ => none
  | fuel + 1, st =>
    match sortStable (fun a b => leInf (pget st.fScoreM a) (pget st.fScoreM b))
        st.openSet with
    | [] => some [endP]
    | current :: rest =>
      if current = endP then
        reconstruct st.cameFrom fuel current [current]
      else
        let st1 := List.foldl (relax g endP current)
          { openSet := rest, cameFrom := st.cameFrom,
            gScoreM := st.gScoreM, fScoreM := st.fScoreM }
          (neighbors current)
        if st1.openSet.length > 200 then some [endP]
        else aStarLoop g endP fuel st1

/-- `PathFinder.aStar(start, end)`. -/
def aStar (g : Grid) (s e : GridPoint) (fuel : Nat) : Option (List GridPoint) :=
  aStarLoop g e fuel
    { openSet := [s], cameFrom := [],
      gScoreM := [(s, 0)], fScoreM := [(s, heuristic s e)] }

/-- `PathFinder.findPath(start, end)`.  `grid = none` is the uninitialized
state (`this.grid === null`).  The body of the source is wrapped in
`try/catch` whose handler returns `[end]`; nothing in the embedded body
throws, and a `none` result means the call has not returned within `fuel`
loop steps (for no amount of fuel, i.e. the call never returns). -/
def findPath (grid : Option Grid) (s e : Vec3) (fuel : Nat) :
    Option (List Vec3) :=
  match grid with
  | none => some [e]
  | some g =>
    if !(isValidCell g (worldToGrid s).x (worldToGrid s).z) ||
       !(isValidCell g (worldToGrid e).x (worldToGrid e).z) then some [e]
    else (aStar g (worldToGrid s) (worldToGrid e) fuel).map
      (fun p => p.map gridToWorld)

/-- The fully open 50×50 grid (no obstacle cells). -/
def openGrid : Grid := List.replicate 50 (List.replicate 50 false)

/-! ## AICoordinator: player threat scalar -/

/-- The four player actions scored by `updatePlayerThreatLevel`. -/
inductive ThreatAction
  | kill
  | damage
  | telekinesis
  | headshot
deriving DecidableEq, Repr

/-- The `switch` increments of `updatePlayerThreatLevel`. -/
def threatDelta : ThreatAction → ℚ
  | .kill => 15
  | .damage => 5
  | .telekinesis => 10
  | .headshot => 20

/-- `updatePlayerThreatLevel(action)`: add the delta, clamp to 100. -/
def updatePlayerThreatLevel (t : ℚ) (a : ThreatAction) : ℚ :=
  min 100 (t + threatDelta a)

/-- The delayed decay scheduled by `updatePlayerThreatLevel` via `setTimeout`:
subtract 5, clamp to 0. -/
def decayPlayerThreatLevel (t : ℚ) : ℚ :=
  max 0 (t - 5)

/-- One event acting on the global threat scalar: an immediate action
increment or a scheduled decay firing. -/
inductive ThreatEvent
  | act (a : ThreatAction)
  | decay
deriving DecidableEq, Repr

/-- Apply one threat event. -/
def threatStep (t : ℚ) : ThreatEvent → ℚ
  | .act a => updatePlayerThreatLevel t a
  | .decay => decayPlayerThreatLevel t

/-- Run a sequence of threat events from an initial value (the singleton
starts at `playerThreatLevel = 0`). -/
def runThreat (t0 : ℚ) (evs : List ThreatEvent) : ℚ :=
  evs.foldl threatStep t0

/-! ## AICoordinator: alert broadcast and formations -/

/-- The fields of an enemy object that the coordinator reads through
`getId() / getPosition() / isAlive() / isBeingThrown() / getAIState()`. -/
structure Agent where
  id : String
  pos : Vec3
  alive : Bool
  beingThrown : Bool
  alertLevel : ℚ
deriving DecidableEq, Repr

/-- `const alertRadius = 15`. -/
def alertRadius : ℚ := 15

/-- `AICoordinator.alertNearbyEnemies(alerterId, position, enemies)`: returns
the ids of the enemies whose `receiveAlert` hook is invoked, in iteration
order (those that are not the alerter, are alive, and are within the alert
radius of `position`; `distanceTo ≤ 15` is stated as `distSq ≤ 15²`). -/
def alertNearbyEnemies (alerterId : String) (position : Vec3)
    (enemies : List Agent) : List String :=
  (enemies.filter fun e =>
    decide (e.id ≠ alerterId) && e.alive &&
    decide (distSq e.pos position ≤ alertRadius ^ 2)).map Agent.id

/-- Inner `enemies.forEach(other => ...)` of `clusterEnemies`: absorb into the
seed's cluster every not-yet-visited enemy within `maxD` of the seed, marking
it visited.  Returns the absorbed list (in iteration order) and the final
visited set. -/
def absorb (seed : Agent) (maxD : ℚ) :
    List Agent → List String → List Agent × List String
  | [], visited => ([], visited)
  | o :: rest, visited =>
    if o.id ∈ visited then absorb seed maxD rest visited
    else if distSq seed.pos o.pos ≤ maxD ^ 2 then
      let r := absorb seed maxD rest (o.id :: visited)
      (o :: r.1, r.2)
    else absorb seed maxD rest visited

/-- Outer `enemies.forEach(enemy => ...)` of `clusterEnemies`: each unvisited
enemy seeds a cluster `[enemy, ...absorbed]`. -/
def clusterLoop (all : List Agent) (maxD : ℚ) :
    List Agent → List String → List (List Agent) × List String
  | [], visited => ([], visited)
  | e :: rest, visited =>
    if e.id ∈ visited then clusterLoop all maxD rest visited
    else
      let r1 := absorb e maxD all (e.id :: visited)
      let r2 := clusterLoop all maxD rest r1.2
      ((e :: r1.1) :: r2.1, r2.2)

/-- `AICoordinator.clusterEnemies(enemies, maxDistance)`. -/
def clusterEnemies (enemies : List Agent) (maxD : ℚ) : List (List Agent) :=
  (clusterLoop enemies maxD enemies []).1

/-- `formationType: 'surround' | 'pincer' | 'line' | 'scatter'`. -/
inductive FormationType
  | surround
  | pincer
  | line
  | scatter
deriving DecidableEq, Repr

/-- `AICoordinator.selectFormationType`. -/
def selectFormationType (threatLevel : ℚ) (groupSize : Nat) : FormationType :=
  if threatLevel > 70 then .scatter
  else if groupSize ≥ 4 then .surround
  else if groupSize = 3 then .pincer
  else .line

/-- `interface FormationGroup` (the `lastUpdate` timestamp field). -/
structure FormationGroup where
  id : String
  leader : String
  members : List String
  targetPosition : Vec3
  formationType : FormationType
  lastUpdate : ℤ
deriving Repr

/-- `group.reduce((prev, current) => prev.alertLevel > current.alertLevel ?
prev : current)` on the nonempty list `h :: t`. -/
def reduceLeader (h : Agent) (t : List Agent) : Agent :=
  t.foldl (fun p c => if p.alertLevel > c.alertLevel then p else c) h

/-- `formationRole` values assigned by `updateFormations`. -/
inductive Role
  | leader
  | flanker
  | support
deriving DecidableEq, Repr

/-- The role given to the member at (0-based) index `i` of the cluster:
leader if it is the chosen leader, else flanker for `i < 2`, else support. -/
def assignRole (leaderId : String) (i : Nat) (e : Agent) : Role :=
  if e.id = leaderId then .leader
  else if i < 2 then .flanker
  else .support

/-- The `group.forEach((enemy, i) => ... setFormationRole ...)` pass: the
`setFormationRole` calls made for one cluster, in order. -/
def assignRoles (group : List Agent) (leaderId : String) :
    List (String × Role) :=
  group.enum.map fun p => (p.2.id, assignRole leaderId p.1 p.2)

/-- `groups.forEach((group, index) => ...)` of `updateFormations`: build a
`FormationGroup` together with the `setFormationRole` assignments made for
its members, for every cluster of size ≥ 2; clusters of size < 2 produce
nothing but still consume an index. -/
def buildFormations (now : ℤ) (threat : ℚ) (playerPos : Vec3) :
    Nat → List (List Agent) → List (FormationGroup × List (String × Role))
  | _, [] => []
  | idx, g :: gs =>
    let rest := buildFormations now threat playerPos (idx + 1) gs
    match g with
    | [] => rest
    | h :: t =>
      if 2 ≤ (h :: t).length then
        let leader := reduceLeader h t
        let f : FormationGroup :=
          { id := "formation_" ++ toString idx
            leader := leader.id
            members := (h :: t).map Agent.id
            targetPosition := playerPos
            formationType := selectFormationType threat (h :: t).length
            lastUpdate := now }
        (f, assignRoles (h :: t) leader.id) :: rest
      else rest

/-- `AICoordinator.updateFormations(enemies, playerPosition)`.  `none` means
the call returned early because less than 2000 ms have elapsed since the last
formation update; otherwise the formations created in this pass (the old map
is cleared first), each with the role assignments made for it, in order. -/
def updateFormations (now lastFormationUpdate : ℤ) (threat : ℚ)
    (enemies : List Agent) (playerPos : Vec3) :
    Option (List (FormationGroup × List (String × Role))) :=
  if now - lastFormationUpdate < 2000 then none
  else
    some (buildFormations now threat playerPos 0
      (clusterEnemies (enemies.filter fun e => e.alive && !e.beingThrown) 12))

/-! ## AICoordinator: formation placement geometry (real-valued) -/

/-- World-space vector for the trigonometric placement functions. -/
structure RVec3 where
  x : ℝ
  y : ℝ
  z : ℝ

/-- JS `Array.prototype.indexOf`: first index of `s`, or `-1`. -/
def jsIndexOf : List String → String → Int
  | [], _ => -1
  | a :: l, s =>
    if a = s then 0
    else
      let r := jsIndexOf l s
      if r = -1 then -1 else r + 1

/-- `this.formations.get(formationId)` over the formations map. -/
def lookupFormation : List (String × FormationGroup) → String →
    Option FormationGroup
  | [], _ => none
  | (k, v) :: m, k' => if k = k' then some v else lookupFormation m k'

/-- JS `Math.atan2(y, x)`, as the argument of the complex number `x + y·i`. -/
noncomputable def jsAtan2 (y x : ℝ) : ℝ :=
  Complex.arg ⟨x, y⟩

/-- `THREE.Vector3.normalize` (`divideScalar(length || 1)`). -/
noncomputable def rnormalize (v : RVec3) : RVec3 :=
  let len := Real.sqrt (v.x ^ 2 + v.y ^ 2 + v.z ^ 2)
  if len = 0 then v else ⟨v.x / len, v.y / len, v.z / len⟩

/-- `v.applyAxisAngle((0,1,0), θ)`: rotation about the +Y axis. -/
noncomputable def rotateY (v : RVec3) (θ : ℝ) : RVec3 :=
  ⟨v.x * Real.cos θ + v.z * Real.sin θ, v.y,
   -v.x * Real.sin θ + v.z * Real.cos θ⟩

/-- `AICoordinator.getSurroundPosition(enemyId, formation, playerPos,
distance)`: the member's index in `formation.members` (JS `indexOf`, `-1`
when absent) times `2π / totalMembers` gives the placement angle. -/
noncomputable def getSurroundPosition (enemyId : String)
    (formation : FormationGroup) (playerPos : RVec3) (distance : ℝ) : RVec3 :=
  let memberIndex : Int := jsIndexOf formation.members enemyId
  let totalMembers : Nat := formation.members.length
  let angleStep : ℝ := 2 * Real.pi / totalMembers
  let angle : ℝ := (memberIndex : ℝ) * angleStep
  ⟨playerPos.x + Real.cos angle * distance, playerPos.y,
   playerPos.z + Real.sin angle * distance⟩

/-- `AICoordinator.getPincerPosition(role, playerPos, distance)`. -/
noncomputable def getPincerPosition (role : String) (playerPos : RVec3)
    (distance : ℝ) : RVec3 :=
  let angle : ℝ := if role = "flanker" then Real.pi / 3 else -(Real.pi / 3)
  ⟨playerPos.x + Real.cos angle * distance, playerPos.y,
   playerPos.z + Real.sin angle * distance⟩

/-- `AICoordinator.getLinePosition(role, playerPos, baseAngle, distance)`. -/
noncomputable def getLinePosition (role : String) (playerPos : RVec3)
    (baseAngle distance : ℝ) : RVec3 :=
  let offset : ℝ := if role = "flanker" then Real.pi / 6 else 0
  let angle := baseAngle + offset
  ⟨playerPos.x + Real.cos angle * distance, playerPos.y,
   playerPos.z + Real.sin angle * distance⟩

/-- `AICoordinator.getScatterPosition(currentPos, playerPos, distance)`; the
two `Math.random()` draws are the parameters `randAngle, randDist ∈ [0,1)`. -/
noncomputable def getScatterPosition (randAngle randDist : ℝ)
    (currentPos playerPos : RVec3) (distance : ℝ) : RVec3 :=
  let direction := rnormalize ⟨currentPos.x - playerPos.x,
    currentPos.y - playerPos.y, currentPos.z - playerPos.z⟩
  let angle := (randAngle - 1 / 2) * (Real.pi / 2)
  let dir2 := rotateY direction angle
  let s := distance + randDist * 5
  ⟨playerPos.x + dir2.x * s, playerPos.y + dir2.y * s, playerPos.z + dir2.z * s⟩

/-- `AICoordinator.getFormationPosition(enemyId, role, formationId,
currentPos, playerPos)`.  The three `Math.random()` draws made on the various
paths are the parameters `randDist, randScatterAngle, randScatterDist`
(each in `[0,1)`); `distance = 8 + randDist * 4`. -/
noncomputable def getFormationPosition
    (formations : List (String × FormationGroup))
    (randDist randScatterAngle randScatterDist : ℝ)
    (enemyId role formationId : String) (currentPos playerPos : RVec3) :
    RVec3 :=
  match lookupFormation formations formationId with
  | none => currentPos
  | some formation =>
    let angle := jsAtan2 (playerPos.z - currentPos.z) (playerPos.x - currentPos.x)
    let distance : ℝ := 8 + randDist * 4
    match formation.formationType with
    | .surround => getSurroundPosition enemyId formation playerPos distance
    | .pincer => getPincerPosition role playerPos distance
    | .line => getLinePosition role playerPos angle distance
    | .scatter => getScatterPosition randScatterAngle randScatterDist
        currentPos playerPos distance

/-! ## Enemy (Enemy.ts): awareness, damage, throw physics -/

/-- Vector sum, `THREE.Vector3.add`. -/
def vadd (a b : Vec3) : Vec3 := ⟨a.x + b.x, a.y + b.y, a.z + b.z⟩

/-- Squared length. -/
def lenSq (a : Vec3) : ℚ := a.x ^ 2 + a.y ^ 2 + a.z ^ 2

/-- Result of `Enemy.updateAwareness`. -/
structure AwarenessResult where
  alertLevel : ℚ
  lastKnownPlayerPosition : Option Vec3
  lastPlayerSightTime : ℤ
  alerted : List String
deriving Repr

/-- `Enemy.updateAwareness(playerPosition, level)`.  `hasLineOfSight` is the
value of `this.canSeePlayer(...)` (a pure query of the collision oracle);
`distance < 20` is stated as `distSq < 20²`.  `alerted` is the list of ids
receiving `receiveAlert` from the broadcast this update performs — note the
source passes the literal empty array `[]` as the enemies argument of
`alertNearbyEnemies`. -/
def updateAwareness (id : String) (pos : Vec3) (alertLevel : ℚ)
    (lastKnown : Option Vec3) (lastSight now : ℤ) (playerPos : Vec3)
    (hasLineOfSight : Bool) : AwarenessResult :=
  if hasLineOfSight && decide (distSq pos playerPos < 20 ^ 2) then
    let newAlert := min 100 (alertLevel + 5)
    { alertLevel := newAlert
      lastKnownPlayerPosition := some playerPos
      lastPlayerSightTime := now
      alerted := if newAlert > 50 then alertNearbyEnemies id playerPos [] else [] }
  else
    { alertLevel :=
        if now - lastSight > 3000 then max 0 (alertLevel - 2) else alertLevel
      lastKnownPlayerPosition := lastKnown
      lastPlayerSightTime := lastSight
      alerted := [] }

/-- The per-enemy fields read and written by `Enemy.takeDamage`. -/
structure DamageState where
  alertLevel : ℚ
  health : ℚ
  maxHealth : ℚ
  hasShield : Bool
  shieldActive : Bool
  isExploder : Bool
  explosionTriggered : Bool
  lastDamageTime : ℤ
  coverPosition : Option Vec3
deriving Repr

/-- Result of `Enemy.takeDamage`: the updated enemy fields, the updated
global threat scalar, the ids alerted by the damage broadcast, and whether
`explode()` fired. -/
structure DamageResult where
  state : DamageState
  threat : ℚ
  alerted : List String
  exploded : Bool
deriving Repr

/-- `Enemy.takeDamage(amount, fromFront)`.  The global threat scalar is
threaded explicitly (the source reaches it through the coordinator
singleton). -/
def takeDamage (id : String) (pos : Vec3) (st : DamageState) (threat : ℚ)
    (now : ℤ) (amount : ℚ) (fromFront : Bool) : DamageResult :=
  let alertLevel := min 100 (st.alertLevel + 25)
  let alerted := alertNearbyEnemies id pos []
  let threat1 := updatePlayerThreatLevel threat .damage
  let amount1 :=
    if st.hasShield && st.shieldActive && fromFront then amount * (1 / 5)
    else amount
  let health := max 0 (st.health - amount1)
  let exploded :=
    st.isExploder && decide (health ≤ st.maxHealth * (3 / 10)) &&
    !st.explosionTriggered
  { state :=
      { st with
        alertLevel := alertLevel
        health := health
        explosionTriggered := st.explosionTriggered || exploded
        lastDamageTime := now
        coverPosition := none }
    threat := threat1
    alerted := alerted
    exploded := exploded }

/-- The per-enemy fields read and written by `Enemy.handleThrowPhysics`. -/
structure ThrowState where
  dmg : DamageState
  position : Vec3
  throwVelocity : Vec3
  isThrown : Bool
  stuckCheckTimer : ℤ
  lastPosition : Vec3
  size : ℚ
  canFly : Bool
  flyHeight : ℚ
deriving Repr

/-- `this.throwVelocity.multiplyScalar(0.95); this.throwVelocity.y -= 0.01`. -/
def dampVel (v : Vec3) : Vec3 :=
  ⟨19 / 20 * v.x, 19 / 20 * v.y - 1 / 100, 19 / 20 * v.z⟩

/-- The position after `this.position.add(this.throwVelocity)`. -/
def throwPos1 (ts : ThrowState) : Vec3 :=
  vadd ts.position ts.throwVelocity

/-- The stuck-detection early exit of `handleThrowPhysics`: timer past 60,
moved less than 0.1 from `lastPosition`, and residual speed below 0.05
(distances stated via squares). -/
def throwStuck (ts : ThrowState) : Bool :=
  decide (ts.stuckCheckTimer + 1 > 60) &&
  decide (distSq (throwPos1 ts) ts.lastPosition < (1 / 10) ^ 2) &&
  decide (lenSq (dampVel ts.throwVelocity) < (1 / 20) ^ 2)

/-- The position after the mid-air collision rollback: on collision the
position reverts to the pre-step position and `findSafeLandingPosition`
relocates it. -/
def throwPos2 (collide : Vec3 → ℚ → ℚ → Bool) (findSafe : Vec3 → Vec3)
    (ts : ThrowState) : Vec3 :=
  if collide (throwPos1 ts) (ts.size * (3 / 5)) (ts.size * (8 / 5)) then
    findSafe ts.position
  else throwPos1 ts

/-- Result of `Enemy.handleThrowPhysics`. -/
structure ThrowResult where
  state : ThrowState
  threat : ℚ
  alerted : List String
deriving Repr

/-- `Enemy.handleThrowPhysics(level)`.  `collide` is the collision oracle
`level.checkCollision`; `findSafe` abstracts `findSafeLandingPosition` (a
position-only helper driven by the oracle and `Math.random`; it never touches
health, alert or threat state).  `groundLevel` is `0.1` on both branches of
the source's conditional. -/
def handleThrowPhysics (collide : Vec3 → ℚ → ℚ → Bool)
    (findSafe : Vec3 → Vec3) (id : String) (ts : ThrowState) (threat : ℚ)
    (now : ℤ) : ThrowResult :=
  let vel1 := dampVel ts.throwVelocity
  if throwStuck ts then
    let pos := ⟨(throwPos1 ts).x, if ts.canFly then ts.flyHeight else 1 / 10,
      (throwPos1 ts).z⟩
    { state :=
        { ts with
          position := findSafe pos
          throwVelocity := ⟨0, 0, 0⟩
          isThrown := false
          stuckCheckTimer := 0 }
      threat := threat
      alerted := [] }
  else
    let timer1 : ℤ :=
      if ts.stuckCheckTimer + 1 > 60 then 0 else ts.stuckCheckTimer + 1
    let last1 :=
      if ts.stuckCheckTimer + 1 > 60 then throwPos1 ts else ts.lastPosition
    let pos2 := throwPos2 collide findSafe ts
    if pos2.y ≤ 1 / 10 then
      let pos3 : Vec3 := ⟨pos2.x, 1 / 10, pos2.z⟩
      let pos4 :=
        if collide pos3 (ts.size * (3 / 5)) (ts.size * (8 / 5)) then
          findSafe pos3
        else pos3
      let dr := takeDamage id pos4 ts.dmg threat now 30 true
      { state :=
          { ts with
            dmg := dr.state
            position := pos4
            throwVelocity := ⟨0, 0, 0⟩
            isThrown := false
            stuckCheckTimer := 0
            lastPosition := last1 }
        threat := dr.threat
        alerted := dr.alerted }
    else
      { state :=
          { ts with
            position := pos2
            throwVelocity := vel1
            stuckCheckTimer := timer1
            lastPosition := last1 }
        threat := threat
        alerted := [] }

/-- The `cameFrom` map of the search from cell `(25,25)` to `(27,25)` on the
open grid at the moment the goal is popped (after two expansions): the falsy
`gScore.get(start) || Infinity` re-opened the start, giving it the
predecessor `(26,25)` while `(26,25)`'s predecessor is the start — a cycle. -/
def camE2 : PMap GridPoint :=
  [(⟨26, 24⟩, ⟨26, 25⟩), (⟨26, 26⟩, ⟨26, 25⟩), (⟨25, 25⟩, ⟨26, 25⟩),
   (⟨27, 25⟩, ⟨26, 25⟩), (⟨25, 24⟩, ⟨25, 25⟩), (⟨25, 26⟩, ⟨25, 25⟩),
   (⟨24, 25⟩, ⟨25, 25⟩), (⟨26, 25⟩, ⟨25, 25⟩)]

/-- The analogous `cameFrom` map for the search from `(25,25)` to `(25,27)`. -/
def camE3 : PMap GridPoint :=
  [(⟨25, 25⟩, ⟨25, 26⟩), (⟨25, 27⟩, ⟨25, 26⟩), (⟨24, 26⟩, ⟨25, 26⟩),
   (⟨26, 26⟩, ⟨25, 26⟩), (⟨25, 24⟩, ⟨25, 25⟩), (⟨25, 26⟩, ⟨25, 25⟩),
   (⟨24, 25⟩, ⟨25, 25⟩), (⟨26, 25⟩, ⟨25, 25⟩)]

/-- Invariant of the A* loop used to characterize successful searches: every
open node is the start or has a `cameFrom` entry, and every `cameFrom` value
is the start or has a `cameFrom` entry (so a terminating reconstruction can
only stop at the start cell). -/
def searchInv (s : GridPoint) (cf : PMap GridPoint)
    (os : List GridPoint) : Prop :=
  (∀ c ∈ os, c = s ∨ (pget cf c).isSome) ∧
  (∀ k v, pget cf k = some v → v = s ∨ (pget cf v).isSome)

/-! ## Concrete fixtures used by witnesses and counterexamples -/

/-- A collision oracle that reports no collisions. -/
def noCollide : Vec3 → ℚ → ℚ → Bool := fun _ _ _ => false

/-- A trivial safe-landing relocator (identity). -/
def idSafe : Vec3 → Vec3 := fun v => v

/-- Damage-state fixture. -/
def dmgW : DamageState :=
  { alertLevel := 0, health := 100, maxHealth := 100, hasShield := false
    shieldActive := false, isExploder := false, explosionTriggered := false
    lastDamageTime := 0, coverPosition := none }

/-- Throw-state fixture: an enemy just above the ground, falling. -/
def tsW : ThrowState :=
  { dmg := dmgW, position := ⟨0, 1/20, 0⟩, throwVelocity := ⟨0, 0, 0⟩
    isThrown := true, stuckCheckTimer := 0, lastPosition := ⟨3, 3, 3⟩
    size := 1, canFly := false, flyHeight := 2 }

/-- A five-member surround formation fixture. -/
def surroundF : FormationGroup :=
  { id := "formation_0", leader := "a", members := ["a", "b", "c", "d", "e"]
    targetPosition := ⟨0, 0, 0⟩, formationType := FormationType.surround
    lastUpdate := 0 }

/-- Formations-map fixture holding `surroundF`. -/
def surroundFs : List (String × FormationGroup) := [("formation_0", surroundF)]

/-- Agents fixture: one cluster of four, alert levels 10 > 5 > 4 > 3. -/
def agA : Agent := ⟨"a", ⟨0, 0, 0⟩, true, false, 10⟩

/-- Second agent of the cluster fixture. -/
def agB : Agent := ⟨"b", ⟨1, 0, 0⟩, true, false, 5⟩

/-- Third agent of the cluster fixture. -/
def agC : Agent := ⟨"c", ⟨2, 0, 0⟩, true, false, 4⟩

/-- Fourth agent of the cluster fixture. -/
def agD : Agent := ⟨"d", ⟨0, 0, 1⟩, true, false, 3⟩

/-- The formation the coordinator builds from the four-agent fixture. -/
def cxF : FormationGroup :=
  { id := "formation_0", leader := "a", members := ["a", "b", "c", "d"]
    targetPosition := ⟨0, 0, 0⟩, formationType := FormationType.surround
    lastUpdate := 2000 }

/-- The role assignments made for the four-agent fixture. -/
def cxRoles : List (String × Role) :=
  [("a", Role.leader), ("b", Role.flanker), ("c", Role.support),
   ("d", Role.support)]

/-! ## Theorems -/

/-- Any single threat event keeps the scalar inside `[0, 100]`. -/
theorem threatStep_mem (t : ℚ) (ht0 : 0 ≤ t) (ht1 : t ≤ 100)
    (ev : ThreatEvent) : 0 ≤ threatStep t ev ∧ threatStep t ev ≤ 100 := by
  cases ev with
  | act a =>
    refine ⟨le_min (by norm_num) (add_nonneg ht0 ?_), min_le_left _ _⟩
    cases a <;> norm_num [threatDelta]
  | decay =>
    exact ⟨le_max_left _ _, max_le (by norm_num) (by linarith)⟩

/-- Every run of threat events from a value in `[0, 100]` stays in
`[0, 100]`. -/
theorem runThreat_mem (evs : List ThreatEvent) (t : ℚ) (ht0 : 0 ≤ t)
    (ht1 : t ≤ 100) : 0 ≤ runThreat t evs ∧ runThreat t evs ≤ 100 := by
  induction evs generalizing t with
  | nil => exact ⟨ht0, ht1⟩
  | cons ev evs ih =>
    have h := threatStep_mem t ht0 ht1 ev
    exact ih (threatStep t ev) h.1 h.2

/-- C6: starting from the initial value 0, every interleaving of action
increments (`kill +15`, `damage +5`, `telekinesis +10`, `headshot +20`) and
scheduled `-5` decays leaves the global player-threat scalar in `[0, 100]`
after every step; in particular any number of undelayed `kill` actions never
pushes it above 100. -/
theorem playerThreatLevel_clamped :
    (∀ evs : List ThreatEvent,
      0 ≤ runThreat 0 evs ∧ runThreat 0 evs ≤ 100) ∧
    ∀ n : Nat,
      runThreat 0 (List.replicate n (ThreatEvent.act ThreatAction.kill)) ≤ 100 := by
  refine ⟨fun evs => runThreat_mem evs 0 le_rfl (by norm_num), fun n => ?_⟩
  exact (runThreat_mem _ 0 le_rfl (by norm_num)).2

/-- C1: `findPath` returns exactly `[end]` when the grid is uninitialized,
and likewise when the start or the end world point maps to an invalid
(out-of-bounds or obstructed) grid cell; on these paths nothing can throw
(and the source wraps the rest in a `try/catch` returning `[end]`). -/
theorem findPath_fallback :
    (∀ (s e : Vec3) (fuel : Nat), findPath none s e fuel = some [e]) ∧
    ∀ (g : Grid) (s e : Vec3) (fuel : Nat),
      isValidCell g (worldToGrid s).x (worldToGrid s).z = false ∨
      isValidCell g (worldToGrid e).x (worldToGrid e).z = false →
      findPath (some g) s e fuel = some [e] := by
  refine ⟨fun s e fuel => rfl, fun g s e fuel h => ?_⟩
  unfold findPath
  rcases h with h | h <;> simp [h]

/-- Concrete world-to-grid evaluations used by witnesses and
counterexamples. -/
theorem worldToGrid_p05 : worldToGrid ⟨1/2, 1, 1/2⟩ = ⟨25, 25⟩ := by
  norm_num [worldToGrid, arenaSize, gridSize, gridCount]

theorem worldToGrid_p15 : worldToGrid ⟨3/2, 1, 1/2⟩ = ⟨26, 25⟩ := by
  norm_num [worldToGrid, arenaSize, gridSize, gridCount]

theorem worldToGrid_p25 : worldToGrid ⟨5/2, 1, 1/2⟩ = ⟨27, 25⟩ := by
  norm_num [worldToGrid, arenaSize, gridSize, gridCount]

theorem worldToGrid_pz25 : worldToGrid ⟨1/2, 1, 5/2⟩ = ⟨25, 27⟩ := by
  norm_num [worldToGrid, arenaSize, gridSize, gridCount]

theorem worldToGrid_origin : worldToGrid ⟨0, 0, 0⟩ = ⟨25, 25⟩ := by
  norm_num [worldToGrid, arenaSize, gridSize, gridCount]

/-- Witness for `findPath_fallback`: the empty grid invalidates every cell,
so a concrete call returns the one-element direct path. -/
theorem findPath_fallback_witness :
    findPath (some []) ⟨0, 0, 0⟩ ⟨1, 0, 1⟩ 5 = some [⟨1, 0, 1⟩] :=
  findPath_fallback.2 [] ⟨0, 0, 0⟩ ⟨1, 0, 1⟩ 5
    (Or.inl (by rw [worldToGrid_origin]; decide))

/-- If the `cameFrom` map links `x` to `y` and `y` back to `x`, the
path-reconstruction loop never exits, whatever fuel it is given. -/
theorem reconstruct_cycle (cf : PMap GridPoint) :
    ∀ (f : Nat) (x y : GridPoint) (path : List GridPoint),
      pget cf x = some y → pget cf y = some x →
      reconstruct cf f x path = none := by
  intro f
  induction f with
  | zero => intro x y path hxy hyx; simp only [reconstruct, hxy]
  | succ f ih =>
    intro x y path hxy hyx
    have hstep : reconstruct cf (f + 1) x path = reconstruct cf f y (y :: path) := by
      simp only [reconstruct, hxy]
    rw [hstep]
    exact ih y x (y :: path) hyx hxy

/-- A node whose predecessor lies on a 2-cycle of the `cameFrom` map also
makes reconstruction diverge. -/
theorem reconstruct_into_cycle (cf : PMap GridPoint) (e x y : GridPoint)
    (he : pget cf e = some x) (hxy : pget cf x = some y)
    (hyx : pget cf y = some x) :
    ∀ (f : Nat) (path : List GridPoint), reconstruct cf f e path = none := by
  intro f path
  cases f with
  | zero => simp only [reconstruct, he]
  | succ f =>
    have hstep : reconstruct cf (f + 1) e path = reconstruct cf f x (x :: path) := by
      simp only [reconstruct, he]
    rw [hstep]
    exact reconstruct_cycle cf f x y (x :: path) hxy hyx

/-- Running the search from `(25,25)` to `(27,25)` on the open grid for three
iterations pops the goal and enters reconstruction over `camE2`. -/
theorem aStar_E2_unfold (f : Nat) :
    aStar openGrid ⟨25, 25⟩ ⟨27, 25⟩ (f + 3) =
      reconstruct camE2 f ⟨27, 25⟩ [⟨27, 25⟩] := rfl

/-- C2 (code bug): on the fully open grid, for the world points mapping to
cells `(25,25)` and `(27,25)` — Manhattan distance 2 — `findPath` never
returns, for any amount of fuel: the reconstruction loop cycles between the
re-opened start and its successor instead of producing a shortest path. -/
theorem findPath_open_distance2_diverges :
    ∀ fuel : Nat,
      findPath (some openGrid) ⟨1/2, 1, 1/2⟩ ⟨5/2, 1, 1/2⟩ fuel = none := by
  have hred : ∀ fuel : Nat,
      findPath (some openGrid) ⟨1/2, 1, 1/2⟩ ⟨5/2, 1, 1/2⟩ fuel =
        (aStar openGrid ⟨25, 25⟩ ⟨27, 25⟩ fuel).map (List.map gridToWorld) := by
    intro fuel
    have h1 : isValidCell openGrid 25 25 = true := by decide
    have h2 : isValidCell openGrid 27 25 = true := by decide
    simp only [findPath, worldToGrid_p05, worldToGrid_p25, h1, h2]
    simp
  intro fuel
  rw [hred]
  match fuel with
  | 0 => rfl
  | 1 => rfl
  | 2 => rfl
  | (f + 3) =>
    rw [aStar_E2_unfold f,
      reconstruct_into_cycle camE2 ⟨27, 25⟩ ⟨26, 25⟩ ⟨25, 25⟩
        (by decide) (by decide) (by decide) f [⟨27, 25⟩]]
    rfl

/-- Three iterations of the search from `(25,25)` to `(25,27)` pop the goal
and enter reconstruction over `camE3`. -/
theorem aStar_E3_unfold (f : Nat) :
    aStar openGrid ⟨25, 25⟩ ⟨25, 27⟩ (f + 3) =
      reconstruct camE3 f ⟨25, 27⟩ [⟨25, 27⟩] := rfl

/-- C7 (code bug): `findPath` does not terminate on every input — for the
open grid and the world points mapping to cells `(25,25)` and `(25,27)` the
call never returns, for any amount of fuel; the open set stays far below the
200-node cap on this input, so the cap never rescues the call. -/
theorem findPath_nontermination :
    ∀ fuel : Nat,
      findPath (some openGrid) ⟨1/2, 1, 1/2⟩ ⟨1/2, 1, 5/2⟩ fuel = none := by
  have hred : ∀ fuel : Nat,
      findPath (some openGrid) ⟨1/2, 1, 1/2⟩ ⟨1/2, 1, 5/2⟩ fuel =
        (aStar openGrid ⟨25, 25⟩ ⟨25, 27⟩ fuel).map (List.map gridToWorld) := by
    intro fuel
    have h1 : isValidCell openGrid 25 25 = true := by decide
    have h2 : isValidCell openGrid 25 27 = true := by decide
    simp only [findPath, worldToGrid_p05, worldToGrid_pz25, h1, h2]
    simp
  intro fuel
  rw [hred]
  match fuel with
  | 0 => rfl
  | 1 => rfl
  | 2 => rfl
  | (f + 3) =>
    rw [aStar_E3_unfold f,
      reconstruct_into_cycle camE3 ⟨25, 27⟩ ⟨25, 26⟩ ⟨25, 25⟩
        (by decide) (by decide) (by decide) f [⟨25, 27⟩]]
    rfl

/-- C3 (code bug): an awareness update that raises the alert level to 53 > 50
with the player visible performs its broadcast through
`alertNearbyEnemies(this.id, playerPosition, [])` — with an **empty** enemies
array — so no `receiveAlert` hook fires at all, even though a second live
agent sits 3 units from the reported position; the same scan applied to the
actual agent list would have alerted exactly that agent. -/
theorem updateAwareness_alerts_nobody :
    (updateAwareness "e1" ⟨0, 0, 0⟩ 48 none 0 1000 ⟨5, 0, 0⟩ true).alertLevel = 53 ∧
    (updateAwareness "e1" ⟨0, 0, 0⟩ 48 none 0 1000 ⟨5, 0, 0⟩ true).alerted = [] ∧
    alertNearbyEnemies "e1" ⟨5, 0, 0⟩
        [⟨"e1", ⟨0, 0, 0⟩, true, false, 48⟩, ⟨"e2", ⟨2, 0, 0⟩, true, false, 0⟩] =
      ["e2"] := by
  have hne : ("e2" = "e1") = False := eq_false (by decide)
  refine ⟨?_, ?_, ?_⟩ <;>
    norm_num [updateAwareness, alertNearbyEnemies, alertRadius, distSq,
      List.filter, hne]

/-- C10: every `takeDamage` call, whatever the amount, source or shield
state, bumps the global threat scalar by the `damage` delta (+5, clamped to
100); in particular the fixed 30 impact damage an enemy deals itself when it
lands after being thrown (the non-stuck landing branch of
`handleThrowPhysics`) raises the threat scalar the same way. -/
theorem takeDamage_bumps_threat :
    (∀ (id : String) (pos : Vec3) (st : DamageState) (threat : ℚ) (now : ℤ)
        (amount : ℚ) (fromFront : Bool),
      (takeDamage id pos st threat now amount fromFront).threat =
        min 100 (threat + 5)) ∧
    ∀ (collide : Vec3 → ℚ → ℚ → Bool) (findSafe : Vec3 → Vec3) (id : String)
        (ts : ThrowState) (threat : ℚ) (now : ℤ),
      throwStuck ts = false →
      (throwPos2 collide findSafe ts).y ≤ 1 / 10 →
      (handleThrowPhysics collide findSafe id ts threat now).threat =
        min 100 (threat + 5) := by
  constructor
  · intro id pos st threat now amount fromFront
    simp [takeDamage, updatePlayerThreatLevel, threatDelta]
  · intro collide findSafe id ts threat now h1 h2
    simp only [handleThrowPhysics, h1, Bool.false_eq_true, if_false,
      if_pos h2, takeDamage, updatePlayerThreatLevel, threatDelta]

/-- The throw fixture is not stuck (its timer is fresh). -/
theorem tsW_not_stuck : throwStuck tsW = false := by
  simp [throwStuck, tsW]

/-- The throw fixture crosses the ground plane this step. -/
theorem tsW_lands : (throwPos2 noCollide idSafe tsW).y ≤ 1 / 10 := by
  norm_num [throwPos2, throwPos1, noCollide, tsW, vadd]

/-- Witness for `takeDamage_bumps_threat`: the falling fixture lands and the
threat scalar rises from 10 to 15. -/
theorem takeDamage_bumps_threat_witness :
    (handleThrowPhysics noCollide idSafe "e1" tsW 10 0).threat =
      min 100 (10 + 5) :=
  takeDamage_bumps_threat.2 noCollide idSafe "e1" tsW 10 0 tsW_not_stuck tsW_lands

/-- C9: for a surround formation, `getFormationPosition` places the member
whose `indexOf` in the member list is `i` on the circle around the target at
angle `i * (2π / n)` (`n` the member count) and radius `8 + rand·4 ∈ [8, 12)`;
consequently for a 5-member formation successive members' angles differ by
`2π/5`, i.e. 72°. -/
theorem getFormationPosition_surround
    (formations : List (String × FormationGroup)) (F : FormationGroup)
    (fid eid role : String) (cur pp : RVec3) (r a2 a3 : ℝ) (i : Nat)
    (hF : lookupFormation formations fid = some F)
    (htype : F.formationType = FormationType.surround)
    (hidx : jsIndexOf F.members eid = (i : Int))
    (hr0 : 0 ≤ r) (hr1 : r < 1) :
    getFormationPosition formations r a2 a3 eid role fid cur pp =
      ⟨pp.x + Real.cos ((i : ℝ) * (2 * Real.pi / (F.members.length : ℝ))) *
          (8 + r * 4),
        pp.y,
        pp.z + Real.sin ((i : ℝ) * (2 * Real.pi / (F.members.length : ℝ))) *
          (8 + r * 4)⟩ ∧
    (8 ≤ 8 + r * 4 ∧ 8 + r * 4 < 12) ∧
    (F.members.length = 5 →
      ((i + 1 : ℕ) : ℝ) * (2 * Real.pi / 5) - (i : ℝ) * (2 * Real.pi / 5) =
        2 * Real.pi / 5) := by
  refine ⟨?_, ⟨by nlinarith, by nlinarith⟩, fun _ => by push_cast; ring⟩
  simp only [getFormationPosition, hF, htype, getSurroundPosition, hidx]
  push_cast
  ring_nf

/-- Witness for `getFormationPosition_surround` at member `"b"` (index 1) of
the 5-member fixture, with `rand = 1/2`. -/
theorem getFormationPosition_surround_witness :
    getFormationPosition surroundFs (1/2) 0 0 "b" "flanker" "formation_0"
        ⟨0, 0, 0⟩ ⟨0, 0, 1⟩ =
      ⟨(RVec3.mk 0 0 1).x +
          Real.cos (((1 : ℕ) : ℝ) *
            (2 * Real.pi / (surroundF.members.length : ℝ))) * (8 + 1/2 * 4),
        (RVec3.mk 0 0 1).y,
        (RVec3.mk 0 0 1).z +
          Real.sin (((1 : ℕ) : ℝ) *
            (2 * Real.pi / (surroundF.members.length : ℝ))) * (8 + 1/2 * 4)⟩ ∧
    ((8 : ℝ) ≤ 8 + 1/2 * 4 ∧ (8 : ℝ) + 1/2 * 4 < 12) ∧
    (surroundF.members.length = 5 →
      ((1 + 1 : ℕ) : ℝ) * (2 * Real.pi / 5) -
          ((1 : ℕ) : ℝ) * (2 * Real.pi / 5) =
        2 * Real.pi / 5) :=
  getFormationPosition_surround surroundFs surroundF "formation_0" "b"
    "flanker" ⟨0, 0, 0⟩ ⟨0, 0, 1⟩ (1/2) 0 0 1 rfl rfl rfl
    one_half_pos.le one_half_lt_one

/-- The `reduce` fold of `updateFormations` returns one of its inputs. -/
theorem foldl_leader_mem (t : List Agent) :
    ∀ acc : Agent,
      t.foldl (fun p c => if p.alertLevel > c.alertLevel then p else c) acc ∈
        acc :: t := by
  induction t with
  | nil => intro acc; simp
  | cons c t ih =>
    intro acc
    simp only [List.foldl_cons]
    rcases List.mem_cons.mp
        (ih (if acc.alertLevel > c.alertLevel then acc else c)) with h | h
    · rw [h]
      by_cases hc : acc.alertLevel > c.alertLevel
      · simp [hc]
      · simp [hc]
    · exact List.mem_cons_of_mem _ (List.mem_cons_of_mem _ h)

/-- The `reduce` fold of `updateFormations` dominates the accumulator and
every processed element in alert level. -/
theorem foldl_leader_max (t : List Agent) :
    ∀ acc : Agent,
      acc.alertLevel ≤
        (t.foldl (fun p c => if p.alertLevel > c.alertLevel then p else c)
          acc).alertLevel ∧
      ∀ e ∈ t,
        e.alertLevel ≤
          (t.foldl (fun p c => if p.alertLevel > c.alertLevel then p else c)
            acc).alertLevel := by
  induction t with
  | nil => intro acc; exact ⟨le_rfl, by simp⟩
  | cons c t ih =>
    intro acc
    obtain ⟨h1, h2⟩ := ih (if acc.alertLevel > c.alertLevel then acc else c)
    have hacc : acc.alertLevel ≤
        (if acc.alertLevel > c.alertLevel then acc else c).alertLevel := by
      by_cases hc : acc.alertLevel > c.alertLevel
      · simp [hc]
      · simp only [if_neg hc]; exact le_of_not_lt hc
    have hc2 : c.alertLevel ≤
        (if acc.alertLevel > c.alertLevel then acc else c).alertLevel := by
      by_cases hc : acc.alertLevel > c.alertLevel
      · simp only [if_pos hc]; exact le_of_lt hc
      · simp [hc]
    refine ⟨le_trans hacc h1, fun e he => ?_⟩
    rcases List.mem_cons.mp he with rfl | he
    · exact le_trans hc2 h1
    · exact h2 e he

/-- The chosen leader is a member of its cluster. -/
theorem reduceLeader_mem (h : Agent) (t : List Agent) :
    reduceLeader h t ∈ h :: t :=
  foldl_leader_mem t h

/-- The chosen leader has maximal alert level in its cluster. -/
theorem reduceLeader_max (h : Agent) (t : List Agent) :
    ∀ e ∈ h :: t, e.alertLevel ≤ (reduceLeader h t).alertLevel := by
  intro e he
  rcases List.mem_cons.mp he with rfl | he
  · exact (foldl_leader_max t e).1
  · exact (foldl_leader_max t h).2 e he

/-- Every formation-and-roles pair built by `buildFormations` comes from a
cluster of size ≥ 2 in the input, with members, leader and roles computed
from that cluster. -/
theorem buildFormations_mem (now : ℤ) (threat : ℚ) (pp : Vec3) :
    ∀ (idx : Nat) (gs : List (List Agent)) (f : FormationGroup)
      (roles : List (String × Role)),
      (f, roles) ∈ buildFormations now threat pp idx gs →
      ∃ hd tl, (hd :: tl) ∈ gs ∧ 2 ≤ (hd :: tl).length ∧
        f.members = (hd :: tl).map Agent.id ∧
        f.leader = (reduceLeader hd tl).id ∧
        roles = assignRoles (hd :: tl) (reduceLeader hd tl).id := by
  intro idx gs
  induction gs generalizing idx with
  | nil => intro f roles h; simp [buildFormations] at h
  | cons g gs ih =>
    intro f roles h
    match g with
    | [] =>
      simp only [buildFormations] at h
      obtain ⟨hd, tl, hmem, rest⟩ := ih (idx + 1) f roles h
      exact ⟨hd, tl, List.mem_cons_of_mem _ hmem, rest⟩
    | hd0 :: tl0 =>
      simp only [buildFormations] at h
      by_cases hlen : 2 ≤ (hd0 :: tl0).length
      · rw [if_pos hlen] at h
        rcases List.mem_cons.mp h with heq | hrest
        · obtain ⟨hf, hr⟩ := Prod.mk.injEq .. ▸ heq
          refine ⟨hd0, tl0, List.mem_cons_self _ _, hlen, ?_, ?_, hr⟩
          · rw [hf]
          · rw [hf]
        · obtain ⟨hd, tl, hmem, rest⟩ := ih (idx + 1) f roles hrest
          exact ⟨hd, tl, List.mem_cons_of_mem _ hmem, rest⟩
      · rw [if_neg hlen] at h
        obtain ⟨hd, tl, hmem, rest⟩ := ih (idx + 1) f roles h
        exact ⟨hd, tl, List.mem_cons_of_mem _ hmem, rest⟩

/-- JS `indexOf` of a present element is nonnegative. -/
theorem jsIndexOf_nonneg : ∀ (l : List String) (s : String), s ∈ l →
    0 ≤ jsIndexOf l s := by
  intro l
  induction l with
  | nil => intro s hs; simp at hs
  | cons a l ih =>
    intro s hs
    by_cases ha : a = s
    · simp [jsIndexOf, ha]
    · have hsl : s ∈ l := by
        rcases List.mem_cons.mp hs with rfl | h
        · exact absurd rfl ha
        · exact h
      have h0 := ih s hsl
      have hne : jsIndexOf l s ≠ -1 := by omega
      simp only [jsIndexOf, if_neg ha, if_neg hne]
      omega

/-- Members at enumeration index ≥ 2 are never assigned the flanker role. -/
theorem enumFrom_roles_no_flanker (lid : String) :
    ∀ (rest : List Agent) (n : Nat), 2 ≤ n →
      ((rest.enumFrom n).map
          (fun p => (p.2.id, assignRole lid p.1 p.2))).filter
          (fun pr => decide (pr.2 = Role.flanker)) = [] := by
  intro rest
  induction rest with
  | nil => intro n hn; rfl
  | cons r rest ih =>
    intro n hn
    have hrole : assignRole lid n r ≠ Role.flanker := by
      unfold assignRole
      by_cases h1 : r.id = lid
      · simp [h1]
      · have h2 : ¬ n < 2 := by omega
        simp [h1, h2]
    simp only [List.enumFrom, List.map_cons, List.filter_cons, hrole,
      decide_eq_true_eq, if_false, decide_eq_false hrole]
    exact ih (n + 1) (by omega)

/-- Flanker census of one cluster's role assignments: with distinct member
ids, the pass yields one flanker when the leader sits at cluster index 0
or 1, and two flankers otherwise — because the `i < 2` test uses the raw
cluster index, not the index among non-leaders. -/
theorem assignRoles_flanker_count (e0 e1 : Agent) (rest : List Agent)
    (lid : String)
    (hnd : ((e0 :: e1 :: rest).map Agent.id).Nodup)
    (hmem : lid ∈ (e0 :: e1 :: rest).map Agent.id) :
    ((assignRoles (e0 :: e1 :: rest) lid).filter
        (fun pr => decide (pr.2 = Role.flanker))).length =
      if jsIndexOf ((e0 :: e1 :: rest).map Agent.id) lid < 2 then 1 else 2 := by
  have htail := enumFrom_roles_no_flanker lid rest 2 le_rfl
  simp only [List.map_cons] at hnd hmem ⊢
  simp only [assignRoles, List.enum, List.enumFrom, List.map_cons]
  by_cases h0 : e0.id = lid
  · by_cases h1 : e1.id = lid
    · exfalso
      have hne : e0.id ≠ e1.id := by
        have := (List.nodup_cons.mp hnd).1
        simp only [List.mem_cons] at this
        exact fun h => this (Or.inl h)
      exact hne (h0.trans h1.symm)
    · have ha0 : assignRole lid 0 e0 = Role.leader := by simp [assignRole, h0]
      have ha1 : assignRole lid 1 e1 = Role.flanker := by
        simp [assignRole, h1]
      simp [List.filter_cons, ha0, ha1, htail, jsIndexOf, h0]
  · have ha0 : assignRole lid 0 e0 = Role.flanker := by simp [assignRole, h0]
    by_cases h1 : e1.id = lid
    · have ha1 : assignRole lid 1 e1 = Role.leader := by simp [assignRole, h1]
      have hj : jsIndexOf (e0.id :: e1.id :: rest.map Agent.id) lid = 1 := by
        simp [jsIndexOf, h0, h1]
      simp [List.filter_cons, ha0, ha1, htail, hj]
    · have ha1 : assignRole lid 1 e1 = Role.flanker := by
        simp [assignRole, h1]
      have hrest : lid ∈ rest.map Agent.id := by
        simp only [List.mem_cons] at hmem
        rcases hmem with h | h | h
        · exact absurd h.symm h0
        · exact absurd h.symm h1
        · exact h
      have hr0 : 0 ≤ jsIndexOf (rest.map Agent.id) lid :=
        jsIndexOf_nonneg _ lid hrest
      have hj : ¬ jsIndexOf (e0.id :: e1.id :: rest.map Agent.id) lid < 2 := by
        simp only [jsIndexOf, if_neg h0, if_neg h1]
        have hne1 : jsIndexOf (rest.map Agent.id) lid ≠ -1 := by omega
        rw [if_neg hne1]
        have hne2 : jsIndexOf (rest.map Agent.id) lid + 1 ≠ -1 := by omega
        rw [if_neg hne2]
        omega
      simp [List.filter_cons, ha0, ha1, htail, hj]

/-- C8 (amended): in every formation created by `updateFormations` from a
cluster of size ≥ 2, the leader is a cluster member of maximal alert level,
and the roles are assigned by raw cluster index — a non-leader member is a
flanker exactly when its cluster index is 0 or 1 — so (for distinct ids)
there are two flankers when the leader's index is ≥ 2 and only one when the
leader occupies index 0 or 1; the remaining members are support. -/
theorem updateFormations_leader_and_roles
    (now last : ℤ) (threat : ℚ) (enemies : List Agent) (pp : Vec3)
    (out : List (FormationGroup × List (String × Role)))
    (f : FormationGroup) (roles : List (String × Role))
    (hout : updateFormations now last threat enemies pp = some out)
    (hmem : (f, roles) ∈ out) :
    ∃ hd tl, 2 ≤ (hd :: tl).length ∧
      f.members = (hd :: tl).map Agent.id ∧
      f.leader = (reduceLeader hd tl).id ∧
      reduceLeader hd tl ∈ hd :: tl ∧
      (∀ e ∈ hd :: tl, e.alertLevel ≤ (reduceLeader hd tl).alertLevel) ∧
      roles = assignRoles (hd :: tl) (reduceLeader hd tl).id ∧
      (((hd :: tl).map Agent.id).Nodup →
        ((roles.filter fun pr => decide (pr.2 = Role.flanker)).length =
          if jsIndexOf ((hd :: tl).map Agent.id) (reduceLeader hd tl).id < 2
          then 1 else 2)) := by
  unfold updateFormations at hout
  by_cases ht : now - last < 2000
  · rw [if_pos ht] at hout; exact absurd hout (by simp)
  · rw [if_neg ht] at hout
    injection hout with hout
    subst hout
    obtain ⟨hd, tl, _, hlen, hmembers, hleader, hroles⟩ :=
      buildFormations_mem now threat pp 0 _ f roles hmem
    refine ⟨hd, tl, hlen, hmembers, hleader, reduceLeader_mem hd tl,
      reduceLeader_max hd tl, hroles, ?_⟩
    intro hnd
    cases tl with
    | nil => simp at hlen
    | cons e1 rest =>
      rw [hroles]
      exact assignRoles_flanker_count hd e1 rest _ hnd
        (List.mem_map_of_mem Agent.id (reduceLeader_mem hd (e1 :: rest)))

/-- Concrete evaluation of the formation pass on the four-agent fixture:
one cluster, leader `"a"` (alert 10), roles leader/flanker/support/support. -/
theorem updateFormations_fixture_eval :
    updateFormations 2000 0 0 [agA, agB, agC, agD] ⟨0, 0, 0⟩ =
      some [(cxF, cxRoles)] := by
  norm_num [updateFormations, clusterEnemies, clusterLoop, absorb, distSq,
    buildFormations, reduceLeader, assignRoles, assignRole,
    selectFormationType, agA, agB, agC, agD, cxF, cxRoles, List.filter,
    List.enum, List.enumFrom]
  simp
  norm_num [buildFormations, reduceLeader, assignRoles, assignRole,
    selectFormationType, cxF, cxRoles, List.enum, List.enumFrom]
  exact ⟨by decide, by decide, by decide, by decide⟩

/-- C8 counterexample: on the four-agent fixture the created formation has
non-leader members `["b", "c", "d"]` in cluster order, yet `"c"` — the second
non-leader — is assigned support, not flanker (the code tests the raw cluster
index `i < 2`, and the leader occupies index 0). -/
theorem updateFormations_flanker_counterexample :
    updateFormations 2000 0 0 [agA, agB, agC, agD] ⟨0, 0, 0⟩ =
      some [(cxF, cxRoles)] ∧
    (cxF.members.filter fun s => decide (s ≠ cxF.leader)) = ["b", "c", "d"] ∧
    ("c", Role.flanker) ∉ cxRoles ∧ ("c", Role.support) ∈ cxRoles := by
  refine ⟨updateFormations_fixture_eval, ?_, ?_, ?_⟩
  · simp [cxF, List.filter]
  · simp [cxRoles]
  · simp [cxRoles]

/-- Witness for `updateFormations_leader_and_roles` on the four-agent
fixture. -/
theorem updateFormations_leader_and_roles_witness :
    ∃ hd tl, 2 ≤ (hd :: tl).length ∧
      cxF.members = (hd :: tl).map Agent.id ∧
      cxF.leader = (reduceLeader hd tl).id ∧
      reduceLeader hd tl ∈ hd :: tl ∧
      (∀ e ∈ hd :: tl, e.alertLevel ≤ (reduceLeader hd tl).alertLevel) ∧
      cxRoles = assignRoles (hd :: tl) (reduceLeader hd tl).id ∧
      (((hd :: tl).map Agent.id).Nodup →
        ((cxRoles.filter fun pr => decide (pr.2 = Role.flanker)).length =
          if jsIndexOf ((hd :: tl).map Agent.id) (reduceLeader hd tl).id < 2
          then 1 else 2)) :=
  updateFormations_leader_and_roles 2000 0 0 [agA, agB, agC, agD] ⟨0, 0, 0⟩
    [(cxF, cxRoles)] cxF cxRoles updateFormations_fixture_eval (by simp)

/-- A sublist of a list of lists joins to a sublist of the join. -/
theorem sublist_join_of_sublist {α : Type} {s t : List (List α)}
    (h : List.Sublist s t) : List.Sublist s.flatten t.flatten := by
  induction h with
  | slnil => simp
  | cons a h ih =>
    simp only [List.flatten_cons]
    exact ih.trans (List.sublist_append_right a _)
  | cons₂ a h ih => simpa using ih.append_left a

/-- The member lists of the built formations are (in order) a sublist of the
id lists of the input clusters. -/
theorem buildFormations_members_sublist (now : ℤ) (threat : ℚ) (pp : Vec3) :
    ∀ (idx : Nat) (gs : List (List Agent)),
      List.Sublist
        ((buildFormations now threat pp idx gs).map fun fr => fr.1.members)
        (gs.map fun g => g.map Agent.id) := by
  intro idx gs
  induction gs generalizing idx with
  | nil => simp [buildFormations]
  | cons g gs ih =>
    match g with
    | [] =>
      simp only [buildFormations, List.map_cons]
      exact (ih (idx + 1)).cons _
    | hd :: tl =>
      simp only [buildFormations, List.map_cons]
      by_cases hlen : 2 ≤ (hd :: tl).length
      · rw [if_pos hlen]
        simp only [List.map_cons]
        exact (ih (idx + 1)).cons₂ _
      · rw [if_neg hlen]
        exact (ih (idx + 1)).cons _

/-- Invariants of the inner absorption loop of `clusterEnemies`: the absorbed
ids are duplicate-free, disjoint from the incoming visited set, and the
outgoing visited set is exactly the union of the two. -/
theorem absorb_spec (seed : Agent) (maxD : ℚ) :
    ∀ (l : List Agent) (v : List String),
      ((absorb seed maxD l v).1.map Agent.id).Nodup ∧
      (∀ s ∈ (absorb seed maxD l v).1.map Agent.id, s ∉ v) ∧
      (∀ s, s ∈ (absorb seed maxD l v).2 ↔
        s ∈ v ∨ s ∈ (absorb seed maxD l v).1.map Agent.id) := by
  intro l
  induction l with
  | nil =>
    intro v
    exact ⟨by simp [absorb], by simp [absorb], fun s => by simp [absorb]⟩
  | cons o rest ih =>
    intro v
    by_cases hv : o.id ∈ v
    · simp only [absorb, if_pos hv]
      exact ih v
    · by_cases hd : distSq seed.pos o.pos ≤ maxD ^ 2
      · simp only [absorb, if_neg hv, if_pos hd]
        obtain ⟨h1, h2, h3⟩ := ih (o.id :: v)
        refine ⟨?_, ?_, ?_⟩
        · simp only [List.map_cons, List.nodup_cons]
          exact ⟨fun hin => (h2 _ hin) (List.mem_cons_self _ _), h1⟩
        · simp only [List.map_cons, List.mem_cons]
          rintro s (rfl | hs)
          · exact hv
          · exact fun hsv => (h2 s hs) (List.mem_cons_of_mem _ hsv)
        · intro s
          rw [h3 s]
          simp only [List.map_cons, List.mem_cons]
          tauto
      · simp only [absorb, if_neg hv, if_neg hd]
        exact ih v

/-- Invariants of the outer loop of `clusterEnemies`: across all produced
clusters the agent ids are duplicate-free, disjoint from the incoming visited
set, and the outgoing visited set is their union with it. -/
theorem clusterLoop_spec (all : List Agent) (maxD : ℚ) :
    ∀ (l : List Agent) (v : List String),
      ((clusterLoop all maxD l v).1.map fun g => g.map Agent.id).flatten.Nodup ∧
      (∀ s ∈ ((clusterLoop all maxD l v).1.map fun g => g.map Agent.id).flatten,
        s ∉ v) ∧
      (∀ s, s ∈ (clusterLoop all maxD l v).2 ↔
        s ∈ v ∨
        s ∈ ((clusterLoop all maxD l v).1.map fun g => g.map Agent.id).flatten) := by
  intro l
  induction l with
  | nil =>
    intro v
    exact ⟨by simp [clusterLoop], by simp [clusterLoop],
      fun s => by simp [clusterLoop]⟩
  | cons e rest ih =>
    intro v
    by_cases hv : e.id ∈ v
    · simp only [clusterLoop, if_pos hv]
      exact ih v
    · simp only [clusterLoop, if_neg hv]
      obtain ⟨a1, a2, a3⟩ := absorb_spec e maxD all (e.id :: v)
      obtain ⟨c1, c2, c3⟩ := ih (absorb e maxD all (e.id :: v)).2
      simp only [List.map_cons, List.flatten_cons]
      refine ⟨?_, ?_, ?_⟩
      · rw [List.nodup_append]
        refine ⟨?_, c1, ?_⟩
        · simp only [List.map_cons, List.nodup_cons]
          refine ⟨fun hin => ?_, a1⟩
          exact (a2 _ hin) (List.mem_cons_self _ _)
        · intro s hs hs2
          have hsv2 : s ∈ (absorb e maxD all (e.id :: v)).2 := by
            rw [a3 s]
            simp only [List.map_cons, List.mem_cons] at hs
            rcases hs with rfl | hs
            · exact Or.inl (List.mem_cons_self _ _)
            · exact Or.inr hs
          exact (c2 s hs2) hsv2
      · intro s hs
        rw [List.mem_append] at hs
        rcases hs with hs | hs
        · simp only [List.map_cons, List.mem_cons] at hs
          rcases hs with rfl | hs
          · exact hv
          · exact fun hsv => (a2 s hs) (List.mem_cons_of_mem _ hsv)
        · intro hsv
          exact (c2 s hs) ((a3 s).mpr (Or.inl (List.mem_cons_of_mem _ hsv)))
      · intro s
        rw [c3 s, a3 s]
        simp only [List.map_cons, List.mem_cons, List.mem_append]
        tauto

/-- The ids across all clusters produced by `clusterEnemies` contain no
duplicates (each enemy lands in exactly one cluster, via the visited set). -/
theorem clusterEnemies_ids_nodup (enemies : List Agent) (maxD : ℚ) :
    ((clusterEnemies enemies maxD).map fun g => g.map Agent.id).flatten.Nodup :=
  (clusterLoop_spec enemies maxD enemies []).1

/-- C5: after a formation pass over agents with pairwise-distinct ids, the
member lists of the created formations are pairwise disjoint with no
duplicates (their concatenation has no repeated id), and every created
formation has at least two members (clusters of size 1 produce none). -/
theorem updateFormations_members_disjoint
    (now last : ℤ) (threat : ℚ) (enemies : List Agent) (pp : Vec3)
    (out : List (FormationGroup × List (String × Role)))
    (_hnd : (enemies.map Agent.id).Nodup)
    (hout : updateFormations now last threat enemies pp = some out) :
    ((out.map fun fr => fr.1.members).flatten.Nodup) ∧
    ∀ fr ∈ out, 2 ≤ fr.1.members.length := by
  unfold updateFormations at hout
  by_cases ht : now - last < 2000
  · rw [if_pos ht] at hout
    exact absurd hout (by simp)
  · rw [if_neg ht] at hout
    injection hout with hout
    subst hout
    constructor
    · exact List.Nodup.sublist
        (sublist_join_of_sublist (buildFormations_members_sublist now threat pp 0 _))
        (clusterEnemies_ids_nodup _ 12)
    · rintro ⟨f, roles⟩ hfr
      obtain ⟨hd, tl, _, hlen, hmembers, _, _⟩ :=
        buildFormations_mem now threat pp 0 _ f roles hfr
      simpa [hmembers] using hlen

/-- Witness for `updateFormations_members_disjoint` on the four-agent
fixture. -/
theorem updateFormations_members_disjoint_witness :
    (([(cxF, cxRoles)].map fun fr => fr.1.members).flatten.Nodup) ∧
    ∀ fr ∈ [(cxF, cxRoles)], 2 ≤ fr.1.members.length :=
  updateFormations_members_disjoint 2000 0 0 [agA, agB, agC, agD] ⟨0, 0, 0⟩
    [(cxF, cxRoles)] (by simp [agA, agB, agC, agD])
    updateFormations_fixture_eval

/-- Membership is preserved by stable insertion. -/
theorem mem_insertStable {α : Type} (le : α → α → Bool) (a x : α) :
    ∀ l : List α, x ∈ insertStable le a l ↔ x ∈ a :: l := by
  intro l
  induction l with
  | nil => simp [insertStable]
  | cons b l ih =>
    simp only [insertStable]
    by_cases h : le a b
    · rw [if_pos h]
    · rw [if_neg h]
      simp only [List.mem_cons] at ih ⊢
      tauto

/-- Membership is preserved by the stable sort. -/
theorem mem_sortStable {α : Type} (le : α → α → Bool) (x : α) :
    ∀ l : List α, x ∈ sortStable le l ↔ x ∈ l := by
  intro l
  induction l with
  | nil => simp [sortStable]
  | cons a l ih =>
    simp only [sortStable]
    rw [mem_insertStable]
    simp only [List.mem_cons]
    tauto

/-- `pget` after a `pset` (prepend), unfolded. -/
theorem pget_cons {α : Type} (cf : PMap α) (k c : GridPoint) (v : α) :
    pget ((k, v) :: cf) c = if k = c then some v else pget cf c := rfl

/-- Map extension preserves presence of a binding. -/
theorem pget_isSome_mono {α : Type} (cf : PMap α) (k c : GridPoint) (v : α)
    (h : (pget cf c).isSome) : (pget ((k, v) :: cf) c).isSome := by
  rw [pget_cons]
  by_cases hk : k = c
  · simp [hk]
  · simp [hk, h]

/-- A successful reconstruction preserves the last element of the (nonempty)
accumulated path — the popped goal stays last. -/
theorem reconstruct_getLast (cf : PMap GridPoint) :
    ∀ (f : Nat) (cur : GridPoint) (path out : List GridPoint),
      path ≠ [] → reconstruct cf f cur path = some out →
      out.getLast? = path.getLast? := by
  intro f
  induction f with
  | zero =>
    intro cur path out hne h
    cases hp : pget cf cur with
    | none =>
      simp only [reconstruct, hp] at h
      injection h with h
      rw [h]
    | some p =>
      simp only [reconstruct, hp] at h
      exact Option.noConfusion h
  | succ f ih =>
    intro cur path out hne h
    cases hp : pget cf cur with
    | none =>
      simp only [reconstruct, hp] at h
      injection h with h
      rw [h]
    | some p =>
      simp only [reconstruct, hp] at h
      rw [ih p (p :: path) out (by simp) h]
      cases path with
      | nil => exact absurd rfl hne
      | cons q qs => simp

/-- The head of a successfully reconstructed path has no `cameFrom` entry and
is either the node reconstruction started from or some entry's value. -/
theorem reconstruct_head (cf : PMap GridPoint) :
    ∀ (f : Nat) (cur : GridPoint) (path out : List GridPoint),
      path.head? = some cur → reconstruct cf f cur path = some out →
      ∃ h, out.head? = some h ∧ pget cf h = none ∧
        (h = cur ∨ ∃ k, pget cf k = some h) := by
  intro f
  induction f with
  | zero =>
    intro cur path out hhead h
    cases hp : pget cf cur with
    | none =>
      simp only [reconstruct, hp] at h
      injection h with h
      subst h
      exact ⟨cur, hhead, hp, Or.inl rfl⟩
    | some p =>
      simp only [reconstruct, hp] at h
      exact Option.noConfusion h
  | succ f ih =>
    intro cur path out hhead h
    cases hp : pget cf cur with
    | none =>
      simp only [reconstruct, hp] at h
      injection h with h
      subst h
      exact ⟨cur, hhead, hp, Or.inl rfl⟩
    | some p =>
      simp only [reconstruct, hp] at h
      obtain ⟨hh, h1, h2, h3⟩ := ih p (p :: path) out rfl h
      refine ⟨hh, h1, h2, Or.inr ?_⟩
      rcases h3 with rfl | ⟨k, hk⟩
      · exact ⟨cur, hp⟩
      · exact ⟨k, hk⟩

/-- One neighbor relaxation preserves the search invariant (and the popped
node keeps its start-or-linked status). -/
theorem relax_inv (g : Grid) (endP current s : GridPoint) (st : SState)
    (n : GridPoint)
    (hinv : searchInv s st.cameFrom st.openSet)
    (hcur : current = s ∨ (pget st.cameFrom current).isSome) :
    searchInv s (relax g endP current st n).cameFrom
        (relax g endP current st n).openSet ∧
    (current = s ∨ (pget (relax g endP current st n).cameFrom current).isSome) := by
  unfold relax
  by_cases hval : isValidCell g n.x n.z = true
  · rw [if_pos hval]
    by_cases himp :
        ltInf ((pget st.gScoreM current).getD 0 + 1) (pget st.gScoreM n) = true
    · rw [if_pos himp]
      dsimp only
      have hcur2 : current = s ∨
          (pget (pset st.cameFrom n current) current).isSome := by
        rcases hcur with h | h
        · exact Or.inl h
        · exact Or.inr (pget_isSome_mono _ _ _ _ h)
      refine ⟨⟨?_, ?_⟩, hcur2⟩
      · intro c hc
        by_cases hany : st.openSet.any (fun m => m = n) = true
        · rw [if_pos hany] at hc
          rcases hinv.1 c hc with h | h
          · exact Or.inl h
          · exact Or.inr (pget_isSome_mono _ _ _ _ h)
        · rw [if_neg hany] at hc
          rcases List.mem_append.mp hc with h | h
          · rcases hinv.1 c h with h2 | h2
            · exact Or.inl h2
            · exact Or.inr (pget_isSome_mono _ _ _ _ h2)
          · have hcn : c = n := by simpa using h
            subst hcn
            refine Or.inr ?_
            rw [pset, pget_cons, if_pos rfl]
            rfl
      · intro k v hkv
        rw [pset, pget_cons] at hkv
        by_cases hk : n = k
        · rw [if_pos hk] at hkv
          injection hkv with hkv
          subst hkv
          rcases hcur with h | h
          · exact Or.inl h
          · exact Or.inr (pget_isSome_mono _ _ _ _ h)
        · rw [if_neg hk] at hkv
          rcases hinv.2 k v hkv with h | h
          · exact Or.inl h
          · exact Or.inr (pget_isSome_mono _ _ _ _ h)
    · rw [if_neg himp]
      exact ⟨hinv, hcur⟩
  · rw [if_neg hval]
    exact ⟨hinv, hcur⟩

/-- Folding the relaxation over all four neighbors preserves the invariant. -/
theorem foldl_relax_inv (g : Grid) (endP current s : GridPoint) :
    ∀ (ns : List GridPoint) (st : SState),
      searchInv s st.cameFrom st.openSet →
      (current = s ∨ (pget st.cameFrom current).isSome) →
      searchInv s (List.foldl (relax g endP current) st ns).cameFrom
        (List.foldl (relax g endP current) st ns).openSet := by
  intro ns
  induction ns with
  | nil => intro st h1 _; exact h1
  | cons n ns ih =>
    intro st h1 h2
    obtain ⟨h1s, h2s⟩ := relax_inv g endP current s st n h1 h2
    exact ih _ h1s h2s

/-- Every list the A* loop returns ends at the goal cell, and unless it is
the single-point fallback `[end]`, it begins at the start cell — the start is
included, not excluded. -/
theorem aStarLoop_spec (g : Grid) (endP s : GridPoint) :
    ∀ (fuel : Nat) (st : SState) (out : List GridPoint),
      searchInv s st.cameFrom st.openSet →
      aStarLoop g endP fuel st = some out →
      out = [endP] ∨ (out.getLast? = some endP ∧ out.head? = some s) := by
  intro fuel
  induction fuel with
  | zero => intro st out _ h; simp [aStarLoop] at h
  | succ fuel ih =>
    intro st out hinv h
    cases hsort : sortStable
        (fun a b => leInf (pget st.fScoreM a) (pget st.fScoreM b))
        st.openSet with
    | nil =>
      simp only [aStarLoop, hsort] at h
      injection h with h
      exact Or.inl h.symm
    | cons current rest =>
      simp only [aStarLoop, hsort] at h
      have hcurmem : current ∈ st.openSet := by
        have : current ∈ sortStable
            (fun a b => leInf (pget st.fScoreM a) (pget st.fScoreM b))
            st.openSet := by
          rw [hsort]; exact List.mem_cons_self _ _
        exact (mem_sortStable _ _ _).mp this
      by_cases hce : current = endP
      · rw [if_pos hce] at h
        obtain ⟨hh, hhead, hnone, horigin⟩ :=
          reconstruct_head st.cameFrom fuel current [current] out rfl h
        have hlast :=
          reconstruct_getLast st.cameFrom fuel current [current] out (by simp) h
        refine Or.inr ⟨?_, ?_⟩
        · rw [hlast, hce]; rfl
        · have hs : hh = s := by
            rcases horigin with rfl | ⟨k, hk⟩
            · rcases hinv.1 _ hcurmem with h2 | h2
              · exact h2
              · rw [hnone] at h2; simp at h2
            · rcases hinv.2 k hh hk with h2 | h2
              · exact h2
              · rw [hnone] at h2; simp at h2
          rw [hs] at hhead
          exact hhead
      · rw [if_neg hce] at h
        have hinv0 : searchInv s st.cameFrom rest := by
          refine ⟨fun c hc => hinv.1 c ?_, hinv.2⟩
          have : c ∈ sortStable
              (fun a b => leInf (pget st.fScoreM a) (pget st.fScoreM b))
              st.openSet := by
            rw [hsort]; exact List.mem_cons_of_mem _ hc
          exact (mem_sortStable _ _ _).mp this
        have hinv1 := foldl_relax_inv g endP current s (neighbors current)
          { openSet := rest, cameFrom := st.cameFrom,
            gScoreM := st.gScoreM, fScoreM := st.fScoreM }
          hinv0 (hinv.1 current hcurmem)
        by_cases hcap :
            (List.foldl (relax g endP current)
              { openSet := rest, cameFrom := st.cameFrom,
                gScoreM := st.gScoreM, fScoreM := st.fScoreM }
              (neighbors current)).openSet.length > 200
        · rw [if_pos hcap] at h
          injection h with h
          exact Or.inl h.symm
        · rw [if_neg hcap] at h
          exact ih _ out hinv1 h

/-- C4 (amended): every successful `findPath` result over an initialized grid
is either the direct fallback `[end]` (uninvolved here: invalid cells) or the
grid path mapped through the cell-corner conversion `gridToWorld`, ordered
start-to-end with the goal cell's point last and the start cell's point
included as the first element — unless the search itself fell back to the
one-point `[end-cell]` path. -/
theorem findPath_waypoints (g : Grid) (s e : Vec3) (fuel : Nat)
    (out : List Vec3) (hout : findPath (some g) s e fuel = some out) :
    out = [e] ∨
    ∃ p : List GridPoint,
      out = p.map gridToWorld ∧
      p.getLast? = some (worldToGrid e) ∧
      (p.head? = some (worldToGrid s) ∨ p = [worldToGrid e]) := by
  unfold findPath at hout
  dsimp only at hout
  by_cases hvalid :
      (!(isValidCell g (worldToGrid s).x (worldToGrid s).z) ||
        !(isValidCell g (worldToGrid e).x (worldToGrid e).z)) = true
  · rw [if_pos hvalid] at hout
    injection hout with hout
    exact Or.inl hout.symm
  · rw [if_neg hvalid] at hout
    obtain ⟨p, hp, hmap⟩ := Option.map_eq_some'.mp hout
    have hspec := aStarLoop_spec g (worldToGrid e) (worldToGrid s) fuel
      { openSet := [worldToGrid s], cameFrom := [],
        gScoreM := [(worldToGrid s, 0)],
        fScoreM := [(worldToGrid s, heuristic (worldToGrid s) (worldToGrid e))] }
      p ⟨by simp [pget], by simp [pget]⟩ hp
    rcases hspec with rfl | ⟨hlast, hhead⟩
    · exact Or.inr ⟨[worldToGrid e], hmap.symm, rfl, Or.inr rfl⟩
    · exact Or.inr ⟨p, hmap.symm, hlast, Or.inl hhead⟩

/-- Concrete distance-1 evaluation: on the open grid the world points at the
centers of cells `(25,25)` and `(26,25)` produce a two-waypoint path whose
coordinates are the cells' minimum corners. -/
theorem findPath_d1_eval :
    findPath (some openGrid) ⟨1/2, 1, 1/2⟩ ⟨3/2, 1, 1/2⟩ 10 =
      some [⟨0, 1, 0⟩, ⟨1, 1, 0⟩] := by
  have h1 : isValidCell openGrid 25 25 = true := by decide
  have h2 : isValidCell openGrid 26 25 = true := by decide
  have hred : findPath (some openGrid) ⟨1/2, 1, 1/2⟩ ⟨3/2, 1, 1/2⟩ 10 =
      (aStar openGrid ⟨25, 25⟩ ⟨26, 25⟩ 10).map (List.map gridToWorld) := by
    simp only [findPath, worldToGrid_p05, worldToGrid_p15, h1, h2]
    simp
  rw [hred]
  have ha : aStar openGrid ⟨25, 25⟩ ⟨26, 25⟩ 10 =
      some [⟨25, 25⟩, ⟨26, 25⟩] := by decide
  rw [ha]
  norm_num [gridToWorld, gridCount, arenaSize, gridSize]

/-- C4 counterexample: a successful search returns the start cell's world
point as the FIRST waypoint (the claim says the start point is excluded), and
the conversion maps cells to their minimum corners, not their centers (the
end waypoint is `(1,1,0)`, not the center `(1.5,1,0.5)` of the end cell). -/
theorem findPath_start_included_counterexample :
    findPath (some openGrid) ⟨1/2, 1, 1/2⟩ ⟨3/2, 1, 1/2⟩ 10 =
      some [gridToWorld (worldToGrid ⟨1/2, 1, 1/2⟩),
        gridToWorld (worldToGrid ⟨3/2, 1, 1/2⟩)] ∧
    gridToWorld (worldToGrid ⟨1/2, 1, 1/2⟩) = ⟨0, 1, 0⟩ ∧
    gridToWorld (worldToGrid ⟨3/2, 1, 1/2⟩) = ⟨1, 1, 0⟩ ∧
    (⟨1, 1, 0⟩ : Vec3) ≠ ⟨3/2, 1, 1/2⟩ := by
  have hw1 : gridToWorld (worldToGrid ⟨1/2, 1, 1/2⟩) = ⟨0, 1, 0⟩ := by
    rw [worldToGrid_p05]
    norm_num [gridToWorld, gridCount, arenaSize, gridSize]
  have hw2 : gridToWorld (worldToGrid ⟨3/2, 1, 1/2⟩) = ⟨1, 1, 0⟩ := by
    rw [worldToGrid_p15]
    norm_num [gridToWorld, gridCount, arenaSize, gridSize]
  refine ⟨?_, hw1, hw2, ?_⟩
  · rw [hw1, hw2]
    exact findPath_d1_eval
  · intro h
    have := congrArg Vec3.x h
    norm_num at this

/-- Witness for `findPath_waypoints` on the concrete distance-1 search. -/
theorem findPath_waypoints_witness :
    ([⟨0, 1, 0⟩, ⟨1, 1, 0⟩] : List Vec3) = [⟨3/2, 1, 1/2⟩] ∨
    ∃ p : List GridPoint,
      ([⟨0, 1, 0⟩, ⟨1, 1, 0⟩] : List Vec3) = p.map gridToWorld ∧
      p.getLast? = some (worldToGrid ⟨3/2, 1, 1/2⟩) ∧
      (p.head? = some (worldToGrid ⟨1/2, 1, 1/2⟩) ∨
        p = [worldToGrid ⟨3/2, 1, 1/2⟩]) :=
  findPath_waypoints openGrid ⟨1/2, 1, 1/2⟩ ⟨3/2, 1, 1/2⟩ 10
    [⟨0, 1, 0⟩, ⟨1, 1, 0⟩] findPath_d1_eval

end GalaxyWar
